import Mathlib

/-!
Shallow embedding of the simulation core of `src/life_simulator.py`
(the "Maple Hunt" action RPG).  Positions, velocities and speeds are
Python floats; they are modelled as exact real numbers.  Hit points,
gold, experience and the other stats are Python ints, modelled as `ℤ`.
Randomness (monster creation, the melee damage bonus, drop rolls) is
passed in as explicit parameters, so every operation is a pure function
of the game state and of the random data it consumes.
-/

/-- The `Equipment` dataclass (lines 12-16): a name and two stat bonuses. -/
structure Equipment where
  name : String
  attack : ℤ := 0
  defense : ℤ := 0
deriving DecidableEq

/-- The `Player` dataclass (lines 19-36), with the source's defaults. -/
structure Player where
  x : ℝ := 400
  y : ℝ := 260
  speed : ℝ := 4
  vy : ℝ := 0
  on_ground : Bool := true
  jump_strength : ℝ := 12
  max_hp : ℤ := 120
  hp : ℤ := 120
  level : ℤ := 1
  exp : ℤ := 0
  exp_to_next : ℤ := 30
  gold : ℤ := 0
  base_attack : ℤ := 8
  base_defense : ℤ := 2
  weapon : Option Equipment := none
  armor : Option Equipment := none

/-- `Player.attack_power` (lines 38-44): base attack plus the attack
bonus of the equipped weapon and armor, when present. -/
def Player.attack_power (p : Player) : ℤ :=
  p.base_attack + (p.weapon.map Equipment.attack).getD 0 + (p.armor.map Equipment.attack).getD 0

/-- `Player.defense_power` (lines 46-52): base defense plus the defense
bonus of the equipped weapon and armor, when present. -/
def Player.defense_power (p : Player) : ℤ :=
  p.base_defense + (p.weapon.map Equipment.defense).getD 0 + (p.armor.map Equipment.defense).getD 0

/-- The threshold update `int(self.exp_to_next * 1.35 + 5)` (line 60) in
exact arithmetic: `1.35 = 27/20`, and Python's `int(...)` truncates the
quotient toward zero, which is `Int.tdiv`. -/
def nextThreshold (etn : ℤ) : ℤ := Int.tdiv (27 * etn + 100) 20

/-- One iteration of the `while` body of `Player.gain_exp` (lines 58-64):
subtract the threshold from `exp`, increment the level, grow the
threshold, add 15 max hp, heal 20 capped at the new max hp, and add
2 attack / 1 defense.  (`max_hp` is increased on line 61 before the heal
on line 62 reads it, so the cap is the new max hp.) -/
def levelUpStep (p : Player) : Player :=
  { p with
    exp := p.exp - p.exp_to_next
    level := p.level + 1
    exp_to_next := nextThreshold p.exp_to_next
    max_hp := p.max_hp + 15
    hp := min (p.max_hp + 15) (p.hp + 20)
    base_attack := p.base_attack + 2
    base_defense := p.base_defense + 1 }

/-- The `while self.exp >= self.exp_to_next` loop of `Player.gain_exp`
(lines 57-65), threading the `leveled` flag.  On states with a negative
threshold — unreachable from the game, where the threshold starts at 30
and every update makes it at least 5 — the source loop can fail to
terminate, so the embedding returns the state unchanged there; that
guard is what makes the recursion well founded. -/
def gainExpLoop (p : Player) (leveled : Bool) : Player × Bool :=
  if p.exp_to_next < 0 then (p, leveled)
  else if p.exp_to_next ≤ p.exp then gainExpLoop (levelUpStep p) true
  else (p, leveled)
termination_by (2 * p.exp.toNat + (1 - p.exp_to_next).toNat)
decreasing_by
  by_cases h0 : p.exp_to_next = 0
  · have h5 : nextThreshold 0 = 5 := by decide
    simp only [levelUpStep, h0, h5]
    omega
  · have h6 : 6 ≤ nextThreshold p.exp_to_next := by
      unfold nextThreshold
      rw [Int.tdiv_eq_ediv (by omega) (by omega)]
      omega
    simp only [levelUpStep]
    omega

/-- `Player.gain_exp` (lines 54-66): add `amount` to `exp`, then run the
level-up loop starting with `leveled = False`; the second component is
the returned flag. -/
def Player.gain_exp (p : Player) (amount : ℤ) : Player × Bool :=
  gainExpLoop { p with exp := p.exp + amount } false

/-- The same `while` loop of `Player.gain_exp` with no totality guard,
under explicit fuel: `none` means the fuel ran out before the loop
exited.  Used to state that the source loop terminates. -/
def gainExpFuel : ℕ → Player → Bool → Option (Player × Bool)
  | 0, _, _ => none
  | n + 1, p, leveled =>
    if p.exp_to_next ≤ p.exp then gainExpFuel n (levelUpStep p) true
    else some (p, leveled)

/-- The `Monster` dataclass (lines 69-78). -/
structure Monster where
  x : ℝ
  y : ℝ
  hp : ℤ
  max_hp : ℤ
  attack : ℤ
  exp_reward : ℤ
  gold_reward : ℤ
  speed : ℝ

/-- The `Drop` dataclass (lines 81-87). -/
structure Drop where
  x : ℝ
  y : ℝ
  kind : String
  amount : ℤ := 0
  equipment : Option Equipment := none

/-- The `GameState` dataclass (lines 90-97).  The pressed-key set is a
list of key symbols. -/
structure GameState where
  player : Player := {}
  monsters : List Monster := []
  drops : List Drop := []
  inventory : List Equipment := []
  keys : List String := []
  combo_timer : ℤ := 0

/-- `self.ground_y` (line 107). -/
def groundY : ℝ := 440

/-- `self.player_ground_offset` (line 108). -/
def playerGroundOffset : ℝ := 52

/-- `self.gravity` (line 109). -/
def gravityConst : ℝ := 0.6

/-- `handle_movement` (lines 257-276): horizontal input scaled by speed
with `x` clamped to `[20, 700]`, gravity integration, ground-collision
clamp that zeroes the velocity and sets `on_ground`, and the `y ≥ 40`
ceiling clamp. -/
noncomputable def handleMovement (s : GameState) : GameState :=
  let p := s.player
  let dx : ℝ := 0
  let dx := if "left" ∈ s.keys ∨ "a" ∈ s.keys then dx - p.speed else dx
  let dx := if "right" ∈ s.keys ∨ "d" ∈ s.keys then dx + p.speed else dx
  let x1 := min 700 (max 20 (p.x + dx))
  let vy1 := p.vy + gravityConst
  let y1 := p.y + vy1
  let groundLimit := groundY - playerGroundOffset
  let p1 :=
    if y1 ≥ groundLimit then
      { p with x := x1, y := max 40 groundLimit, vy := 0, on_ground := true }
    else
      { p with x := x1, y := max 40 y1, vy := vy1 }
  { s with player := p1 }

/-- The distance `max(1.0, (dx**2 + dy**2) ** 0.5)` from the player at
`(px, py)` to a monster at `(mx, my)` in `update_monsters` (lines
302-304), floored at `1.0` to guard the division. -/
noncomputable def distOf (px py mx my : ℝ) : ℝ :=
  max 1 (Real.sqrt ((px - mx) ^ 2 + (py - my) ^ 2))

/-- The respawn penalty applied when the player's hp reaches 0 in
`update_monsters` (lines 313-317): full heal, 20 gold lost floored at 0,
and position reset to the start. -/
def deathReset (p : Player) : Player :=
  { p with
    hp := p.max_hp
    gold := max 0 (p.gold - 20)
    x := 400
    y := groundY - playerGroundOffset }

/-- The part of the per-tick state that the monster loop of
`update_monsters` mutates besides the monster list itself. -/
structure TickState where
  player : Player
  drops : List Drop
  combo_timer : ℤ

/-- The `for monster in self.state.monsters` loop of `update_monsters`
(lines 301-319): each monster steps toward the player along the
normalized direction vector; within distance 26 it deals
`max(1, attack - defense_power())` damage, hp floored at 0; if the hp
reaches 0 the respawn penalty fires, the drop list is cleared and the
`break` leaves the remaining monsters unprocessed (the current monster
has already moved). -/
noncomputable def updateLoop (t : TickState) (ms : List Monster) : TickState × List Monster :=
  match ms with
  | [] => (t, [])
  | m :: rest =>
    let p := t.player
    let dist := distOf p.x p.y m.x m.y
    let m' := { m with
      x := m.x + m.speed * (p.x - m.x) / dist
      y := m.y + m.speed * (p.y - m.y) / dist }
    if dist < 26 then
      let damage := max 1 (m.attack - p.defense_power)
      let p' := { p with hp := max 0 (p.hp - damage) }
      if p'.hp = 0 then
        ({ player := deathReset p', drops := [], combo_timer := 15 }, m' :: rest)
      else
        let r := updateLoop { player := p', drops := t.drops, combo_timer := 15 } rest
        (r.1, m' :: r.2)
    else
      let r := updateLoop t rest
      (r.1, m' :: r.2)

/-- The `while len(self.state.monsters) < 6` refill loop of
`update_monsters` (lines 321-322).  `supply k` is the monster the `k`-th
call of `create_monster()` returns. -/
def refillLoop (supply : ℕ → Monster) (k : ℕ) (ms : List Monster) : List Monster :=
  if ms.length < 6 then refillLoop supply (k + 1) (ms ++ [supply k]) else ms
termination_by 6 - ms.length
decreasing_by
  simp only [List.length_append, List.length_cons, List.length_nil]
  omega

/-- `update_monsters` (lines 299-322): the monster loop followed by the
population refill. -/
noncomputable def updateMonsters (supply : ℕ → Monster) (s : GameState) : GameState :=
  let r := updateLoop { player := s.player, drops := s.drops, combo_timer := s.combo_timer }
    s.monsters
  { s with
    player := r.1.player
    drops := r.1.drops
    combo_timer := r.1.combo_timer
    monsters := refillLoop supply 0 r.2 }

/-- The random data one call of `spawn_drops` (lines 348-356) consumes:
whether each of the four independent probability rolls fires
(`random.random() < 0.75 / 0.7 / 0.45 / 0.35`), the two position
jitters (`random.uniform(-12, 12)`), and the equipment
`random_equipment()` would build. -/
structure SpawnRoll where
  dropExp : Bool
  dropGold : Bool
  dropGem : Bool
  dropGear : Bool
  jitterX : ℝ
  jitterY : ℝ
  gear : Equipment

/-- `spawn_drops(x, y)` (lines 348-356) with the random data `r`: each
successful roll appends its drop near the death location, in source
order. -/
def spawnDrops (r : SpawnRoll) (x y : ℝ) : List Drop :=
  (if r.dropExp then [{ x := x + r.jitterX, y := y, kind := "exp", amount := 6 }] else []) ++
  (if r.dropGold then [{ x := x, y := y + r.jitterY, kind := "gold", amount := 8 }] else []) ++
  (if r.dropGem then [{ x := x - 8, y := y - 4, kind := "gem", amount := 12 }] else []) ++
  (if r.dropGear then [{ x := x + 6, y := y + 6, kind := "gear", equipment := some r.gear }]
   else [])

/-- `handle_monster_down` (lines 338-346) minus the list removal, which
the attack loop performs by not keeping the monster: grant the exp
reward through `gain_exp`, add the gold reward, and spawn drops at the
monster's location. -/
def handleMonsterDown (roll : SpawnRoll) (p : Player) (drops : List Drop) (m : Monster) :
    Player × List Drop :=
  let p1 := (p.gain_exp m.exp_reward).1
  ({ p1 with gold := p1.gold + m.gold_reward }, drops ++ spawnDrops roll m.x m.y)

/-- The `for monster in list(self.state.monsters)` loop of
`attack_monsters` (lines 327-334): within distance 60 the monster takes
`attack_power() + randint(0, 4)` damage, hp floored at 0, and a monster
reaching hp 0 is removed with `handle_monster_down`.  `bonus bi` is the
`bi`-th `random.randint(0, 4)` drawn, `rolls di` the random data of the
`di`-th `spawn_drops` call. -/
noncomputable def attackLoop (bonus : ℕ → ℤ) (rolls : ℕ → SpawnRoll) (bi di : ℕ)
    (p : Player) (drops : List Drop) (ms : List Monster) :
    Player × List Drop × List Monster :=
  match ms with
  | [] => (p, drops, [])
  | m :: rest =>
    let dist := Real.sqrt ((m.x - p.x) ^ 2 + (m.y - p.y) ^ 2)
    if dist < 60 then
      let damage := p.attack_power + bonus bi
      let hp1 := max 0 (m.hp - damage)
      if hp1 = 0 then
        let pd := handleMonsterDown (rolls di) p drops { m with hp := hp1 }
        let r := attackLoop bonus rolls (bi + 1) (di + 1) pd.1 pd.2 rest
        (r.1, r.2.1, r.2.2)
      else
        let r := attackLoop bonus rolls (bi + 1) di p drops rest
        (r.1, r.2.1, { m with hp := hp1 } :: r.2.2)
    else
      let r := attackLoop bonus rolls bi di p drops rest
      (r.1, r.2.1, m :: r.2.2)

/-- `attack_monsters` (lines 324-336) with its random data passed in. -/
noncomputable def attackMonsters (bonus : ℕ → ℤ) (rolls : ℕ → SpawnRoll) (s : GameState) :
    GameState :=
  let r := attackLoop bonus rolls 0 0 s.player s.drops s.monsters
  { s with player := r.1, drops := r.2.1, monsters := r.2.2 }

/-- The effect of collecting one drop in `collect_drops` (lines
373-385): exp drops feed `gain_exp`, gold drops add gold, gems add gold
and heal 6 capped at max hp, gear drops carrying equipment join the
inventory; any other drop (a gear drop with no payload included) only
disappears. -/
def applyDrop (p : Player) (inv : List Equipment) (d : Drop) : Player × List Equipment :=
  if d.kind = "exp" then ((p.gain_exp d.amount).1, inv)
  else if d.kind = "gold" then ({ p with gold := p.gold + d.amount }, inv)
  else if d.kind = "gem" then
    ({ p with gold := p.gold + d.amount, hp := min p.max_hp (p.hp + 6) }, inv)
  else if d.kind = "gear" then
    match d.equipment with
    | some e => (p, inv ++ [e])
    | none => (p, inv)
  else (p, inv)

/-- The `for drop in list(self.state.drops)` loop of `collect_drops`
(lines 370-386): a drop strictly within distance 25 of the player is
applied and removed; the rest stay. -/
noncomputable def collectLoop (p : Player) (inv : List Equipment) (ds : List Drop) :
    Player × List Equipment × List Drop :=
  match ds with
  | [] => (p, inv, [])
  | d :: rest =>
    let dist := Real.sqrt ((d.x - p.x) ^ 2 + (d.y - p.y) ^ 2)
    if dist < 25 then
      let pi := applyDrop p inv d
      collectLoop pi.1 pi.2 rest
    else
      let r := collectLoop p inv rest
      (r.1, r.2.1, d :: r.2.2)

/-- `collect_drops` (lines 368-386). -/
noncomputable def collectDrops (s : GameState) : GameState :=
  let r := collectLoop s.player s.inventory s.drops
  { s with player := r.1, inventory := r.2.1, drops := r.2.2 }

/-- The armor test of `equip_selected` (line 396): the item name
contains one of the four fixed armor keywords
(갑옷 armor, 망토 cloak, 부츠 boots, 장갑 gloves) as a substring. -/
def isArmorName (name : String) : Bool :=
  decide ("갑옷".data <:+: name.data) || decide ("망토".data <:+: name.data) ||
    decide ("부츠".data <:+: name.data) || decide ("장갑".data <:+: name.data)

/-- `equip_selected` (lines 388-405) for a selected inventory index: pop
the item; if its name matches an armor keyword it goes to the armor slot,
otherwise to the weapon slot, and a previously equipped item in that slot
returns to the inventory.  With no valid selection nothing happens. -/
def equipSelected (s : GameState) (index : ℕ) : GameState :=
  if h : index < s.inventory.length then
    let item := s.inventory.get ⟨index, h⟩
    let inv := s.inventory.eraseIdx index
    if isArmorName item.name then
      let inv := match s.player.armor with
        | some a => inv ++ [a]
        | none => inv
      { s with inventory := inv, player := { s.player with armor := some item } }
    else
      let inv := match s.player.weapon with
        | some w => inv ++ [w]
        | none => inv
      { s with inventory := inv, player := { s.player with weapon := some item } }
  else s

/-- `discard_selected` (lines 407-414): pop the selected item and drop it
permanently.  With no valid selection nothing happens. -/
def discardSelected (s : GameState) (index : ℕ) : GameState :=
  if index < s.inventory.length then
    { s with inventory := s.inventory.eraseIdx index }
  else s

/-! ## Basic facts about the leveling arithmetic -/

/-- The threshold update sends a nonnegative threshold to at least 5. -/
theorem nextThreshold_lower (e : ℤ) (h : 0 ≤ e) : 5 ≤ nextThreshold e := by
  unfold nextThreshold
  rw [Int.tdiv_eq_ediv (by omega) (by omega)]
  omega

/-- The threshold update strictly grows a positive threshold. -/
theorem lt_nextThreshold (e : ℤ) (h : 1 ≤ e) : e < nextThreshold e := by
  unfold nextThreshold
  rw [Int.tdiv_eq_ediv (by omega) (by omega)]
  omega

/-- On a nonnegative threshold, the loop exits when `exp` is below it. -/
theorem gainExpLoop_exit (p : Player) (l : Bool) (h0 : 0 ≤ p.exp_to_next)
    (h : p.exp < p.exp_to_next) : gainExpLoop p l = (p, l) := by
  rw [gainExpLoop]
  simp only [if_neg (by omega : ¬ p.exp_to_next < 0), if_neg (by omega : ¬ p.exp_to_next ≤ p.exp)]

/-- On a nonnegative threshold, the loop iterates when `exp` reaches it. -/
theorem gainExpLoop_step (p : Player) (l : Bool) (h0 : 0 ≤ p.exp_to_next)
    (h : p.exp_to_next ≤ p.exp) : gainExpLoop p l = gainExpLoop (levelUpStep p) true := by
  rw [gainExpLoop]
  simp only [if_neg (by omega : ¬ p.exp_to_next < 0), if_pos h]

/-- The loop never decreases the level. -/
theorem gainExpLoop_level_mono (p : Player) (l : Bool) :
    p.level ≤ (gainExpLoop p l).1.level := by
  induction p, l using gainExpLoop.induct with
  | case1 p l h1 =>
    rw [gainExpLoop, if_pos h1]
  | case2 p l h1 h2 ih =>
    rw [gainExpLoop, if_neg h1, if_pos h2]
    have hlvl : (levelUpStep p).level = p.level + 1 := rfl
    omega
  | case3 p l h1 h2 =>
    rw [gainExpLoop, if_neg h1, if_neg h2]

/-- A loop entered with the flag already set returns the flag set. -/
theorem gainExpLoop_flag_true (p : Player) (l : Bool) (h : l = true) :
    (gainExpLoop p l).2 = true := by
  induction p, l using gainExpLoop.induct with
  | case1 p l h1 => rw [gainExpLoop, if_pos h1]; exact h
  | case2 p l h1 h2 ih => rw [gainExpLoop, if_neg h1, if_pos h2]; exact ih rfl
  | case3 p l h1 h2 => rw [gainExpLoop, if_neg h1, if_neg h2]; exact h

/-- On a nonnegative threshold the loop returns the flag set iff it set it
on this run (started clear, the level grew) or it was already set. -/
theorem gainExpLoop_flag_iff (p : Player) (l : Bool) :
    0 ≤ p.exp_to_next →
    ((gainExpLoop p l).2 = true ↔ (l = true ∨ p.level < (gainExpLoop p l).1.level)) := by
  induction p, l using gainExpLoop.induct with
  | case1 p l h1 => intro h; exact absurd h (by omega)
  | case2 p l h1 h2 ih =>
    intro h
    rw [gainExpLoop, if_neg h1, if_pos h2]
    have h3 := gainExpLoop_level_mono (levelUpStep p) true
    have h4 : (levelUpStep p).level = p.level + 1 := rfl
    have h5 := gainExpLoop_flag_true (levelUpStep p) true rfl
    constructor
    · intro _; right; omega
    · intro _; exact h5
  | case3 p l h1 h2 =>
    intro h
    rw [gainExpLoop, if_neg h1, if_neg h2]
    constructor
    · exact Or.inl
    · rintro (hl | hl)
      · exact hl
      · exact absurd hl (lt_irrefl _)

/-- On a nonnegative threshold the loop ends with `exp` strictly below the
threshold. -/
theorem gainExpLoop_exp_lt (p : Player) (l : Bool) :
    0 ≤ p.exp_to_next →
    (gainExpLoop p l).1.exp < (gainExpLoop p l).1.exp_to_next := by
  induction p, l using gainExpLoop.induct with
  | case1 p l h1 => intro h; exact absurd h (by omega)
  | case2 p l h1 h2 ih =>
    intro h
    rw [gainExpLoop, if_neg h1, if_pos h2]
    refine ih ?_
    have he : (levelUpStep p).exp_to_next = nextThreshold p.exp_to_next := rfl
    have := nextThreshold_lower p.exp_to_next h
    omega
  | case3 p l h1 h2 =>
    intro h
    rw [gainExpLoop, if_neg h1, if_neg h2]
    show p.exp < p.exp_to_next
    omega

/-- The loop keeps `0 ≤ hp ≤ max_hp`. -/
theorem gainExpLoop_hp_inv (p : Player) (l : Bool) :
    0 ≤ p.hp → p.hp ≤ p.max_hp →
    0 ≤ (gainExpLoop p l).1.hp ∧ (gainExpLoop p l).1.hp ≤ (gainExpLoop p l).1.max_hp := by
  induction p, l using gainExpLoop.induct with
  | case1 p l h1 => intro ha hb; rw [gainExpLoop, if_pos h1]; exact ⟨ha, hb⟩
  | case2 p l h1 h2 ih =>
    intro ha hb
    rw [gainExpLoop, if_neg h1, if_pos h2]
    refine ih ?_ ?_
    · have hh : (levelUpStep p).hp = min (p.max_hp + 15) (p.hp + 20) := rfl
      omega
    · have hh : (levelUpStep p).hp = min (p.max_hp + 15) (p.hp + 20) := rfl
      have hm : (levelUpStep p).max_hp = p.max_hp + 15 := rfl
      omega
  | case3 p l h1 h2 => intro ha hb; rw [gainExpLoop, if_neg h1, if_neg h2]; exact ⟨ha, hb⟩

/-- The loop never moves the player. -/
theorem gainExpLoop_xy (p : Player) (l : Bool) :
    (gainExpLoop p l).1.x = p.x ∧ (gainExpLoop p l).1.y = p.y := by
  induction p, l using gainExpLoop.induct with
  | case1 p l h1 => rw [gainExpLoop, if_pos h1]; exact ⟨rfl, rfl⟩
  | case2 p l h1 h2 ih =>
    rw [gainExpLoop, if_neg h1, if_pos h2]
    have hx : (levelUpStep p).x = p.x := rfl
    have hy : (levelUpStep p).y = p.y := rfl
    exact ⟨by rw [ih.1, hx], by rw [ih.2, hy]⟩
  | case3 p l h1 h2 => rw [gainExpLoop, if_neg h1, if_neg h2]; exact ⟨rfl, rfl⟩

/-! ## C1: behaviour of Player.gain_exp -/

/-- C1.  `Player.gain_exp(amount)` adds `amount` to `exp` and then, while
`exp ≥ exp_to_next`, subtracts the threshold, increments the level, sets
the threshold to `int(exp_to_next * 1.35 + 5)`, adds 15 max hp, heals 20
capped at max hp, adds 2 base attack and 1 base defense (all of which is
`levelUpStep`), and returns `true` iff at least one level-up occurred;
starting from the default state (`exp = 0`, `exp_to_next = 30`),
`gain_exp 35` gives level 2, `exp = 5`, `exp_to_next = 45`, max hp 135,
hp 135, base attack 10 and base defense 3. -/
theorem gain_exp_spec :
    (∀ p : Player, ∀ amount : ℤ,
      p.gain_exp amount = gainExpLoop { p with exp := p.exp + amount } false) ∧
    (∀ p : Player, ∀ l : Bool, 0 ≤ p.exp_to_next → p.exp < p.exp_to_next →
      gainExpLoop p l = (p, l)) ∧
    (∀ p : Player, ∀ l : Bool, 0 ≤ p.exp_to_next → p.exp_to_next ≤ p.exp →
      gainExpLoop p l = gainExpLoop (levelUpStep p) true) ∧
    (∀ p : Player, ∀ amount : ℤ, 0 ≤ p.exp_to_next →
      ((p.gain_exp amount).2 = true ↔ p.level < (p.gain_exp amount).1.level)) ∧
    ((({} : Player).gain_exp 35).1.level = 2 ∧ (({} : Player).gain_exp 35).1.exp = 5 ∧
      (({} : Player).gain_exp 35).1.exp_to_next = 45 ∧
      (({} : Player).gain_exp 35).1.max_hp = 135 ∧ (({} : Player).gain_exp 35).1.hp = 135 ∧
      (({} : Player).gain_exp 35).1.base_attack = 10 ∧
      (({} : Player).gain_exp 35).1.base_defense = 3 ∧
      (({} : Player).gain_exp 35).2 = true) := by
  refine ⟨fun p amount => rfl, gainExpLoop_exit, gainExpLoop_step, ?_, ?_⟩
  · intro p amount h
    have := gainExpLoop_flag_iff { p with exp := p.exp + amount } false h
    simpa [Player.gain_exp] using this
  · have e1 : ({} : Player).gain_exp 35 =
        gainExpLoop { exp := 35, exp_to_next := 30 } false := rfl
    rw [e1, gainExpLoop_step _ _ (by decide) (by decide)]
    have e2 : levelUpStep { exp := 35, exp_to_next := 30 } =
        ({ exp := 5, exp_to_next := 45, level := 2, max_hp := 135, hp := 135,
           base_attack := 10, base_defense := 3 } : Player) := by
      simp only [levelUpStep]
      norm_num
      decide
    rw [e2, gainExpLoop_exit _ _ (by decide) (by decide)]
    exact ⟨rfl, rfl, rfl, rfl, rfl, rfl, rfl, rfl⟩

/-- C1 witness: the loop-exit, loop-step and flag clauses instantiated at
a concrete player. -/
theorem gain_exp_spec_witness :
    ((0:ℤ) ≤ (30:ℤ) ∧ (29:ℤ) < (30:ℤ) ∧ (30:ℤ) ≤ (35:ℤ)) ∧
    gainExpLoop { exp := 29 } false = ({ exp := 29 }, false) ∧
    gainExpLoop { exp := 35 } false = gainExpLoop (levelUpStep { exp := 35 }) true ∧
    ((({} : Player).gain_exp 35).2 = true ↔
      ({} : Player).level < (({} : Player).gain_exp 35).1.level) :=
  ⟨⟨by decide, by decide, by decide⟩,
    gain_exp_spec.2.1 { exp := 29 } false (by decide) (by decide),
    gain_exp_spec.2.2.1 { exp := 35 } false (by decide) (by decide),
    gain_exp_spec.2.2.2.1 {} 35 (by decide)⟩

/-! ## C4: level monotonicity, exp below threshold -/

/-- C4.  `gain_exp` never decreases the level, and afterwards
`exp < exp_to_next`; stated for states with a nonnegative threshold, the
ones on which the source loop provably terminates (the threshold starts
at 30 and every update keeps it at least 5, so every state the game can
reach satisfies this). -/
theorem gain_exp_level_monotone (p : Player) (amount : ℤ) (h : 0 ≤ p.exp_to_next) :
    p.level ≤ (p.gain_exp amount).1.level ∧
    (p.gain_exp amount).1.exp < (p.gain_exp amount).1.exp_to_next := by
  constructor
  · exact gainExpLoop_level_mono { p with exp := p.exp + amount } false
  · exact gainExpLoop_exp_lt { p with exp := p.exp + amount } false h

/-- C4 witness at the default player and a concrete amount. -/
theorem gain_exp_level_monotone_witness :
    (0:ℤ) ≤ ({} : Player).exp_to_next ∧
    ({} : Player).level ≤ (({} : Player).gain_exp 100).1.level ∧
    (({} : Player).gain_exp 100).1.exp < (({} : Player).gain_exp 100).1.exp_to_next :=
  ⟨by decide, (gain_exp_level_monotone {} 100 (by decide)).1,
    (gain_exp_level_monotone {} 100 (by decide)).2⟩

/-! ## C10: termination of the gain_exp loop -/

/-- C10.  With a positive threshold each iteration of the `while` loop
strictly decreases `exp` while the threshold stays positive and strictly
grows, so the loop terminates: the fuel semantics of the source loop
(`gainExpFuel`, which has no totality guard) reaches, for some finite
fuel, exactly the result of the embedded total function. -/
theorem gain_exp_terminates :
    (∀ p : Player, 1 ≤ p.exp_to_next → p.exp_to_next ≤ p.exp →
      (levelUpStep p).exp < p.exp ∧ p.exp_to_next < (levelUpStep p).exp_to_next ∧
      1 ≤ (levelUpStep p).exp_to_next) ∧
    (∀ p : Player, ∀ amount : ℤ, 1 ≤ p.exp_to_next → 0 ≤ amount →
      ∃ n, gainExpFuel n { p with exp := p.exp + amount } false = some (p.gain_exp amount)) := by
  have key : ∀ p : Player, ∀ l : Bool, 1 ≤ p.exp_to_next →
      ∃ n, gainExpFuel n p l = some (gainExpLoop p l) := by
    intro p l
    induction p, l using gainExpLoop.induct with
    | case1 p l h1 => intro h; exact absurd h (by omega)
    | case2 p l h1 h2 ih =>
      intro h
      have he : (levelUpStep p).exp_to_next = nextThreshold p.exp_to_next := rfl
      have hlow := nextThreshold_lower p.exp_to_next (by omega)
      obtain ⟨n, hn⟩ := ih (by omega)
      refine ⟨n + 1, ?_⟩
      rw [gainExpFuel, if_pos h2, hn, gainExpLoop_step p l (by omega) h2]
    | case3 p l h1 h2 =>
      intro h
      refine ⟨1, ?_⟩
      rw [gainExpFuel, if_neg h2, gainExpLoop_exit p l (by omega) (by omega)]
  constructor
  · intro p h1 h2
    have he : (levelUpStep p).exp = p.exp - p.exp_to_next := rfl
    have ht : (levelUpStep p).exp_to_next = nextThreshold p.exp_to_next := rfl
    have hgt := lt_nextThreshold p.exp_to_next h1
    refine ⟨by omega, by omega, by omega⟩
  · intro p amount h _
    exact key { p with exp := p.exp + amount } false h

/-- C10 witness: the strict-decrease clause and the termination clause at
a concrete player. -/
theorem gain_exp_terminates_witness :
    ((1:ℤ) ≤ ({ exp := 40 } : Player).exp_to_next ∧
      ({ exp := 40 } : Player).exp_to_next ≤ ({ exp := 40 } : Player).exp ∧ (0:ℤ) ≤ 40) ∧
    ((levelUpStep { exp := 40 }).exp < ({ exp := 40 } : Player).exp ∧
      ({ exp := 40 } : Player).exp_to_next < (levelUpStep { exp := 40 }).exp_to_next ∧
      1 ≤ (levelUpStep { exp := 40 }).exp_to_next) ∧
    (∃ n, gainExpFuel n { exp := 0 + 40 } false = some (({} : Player).gain_exp 40)) :=
  ⟨⟨by decide, by decide, by decide⟩,
    gain_exp_terminates.1 { exp := 40 } (by decide) (by decide),
    gain_exp_terminates.2 {} 40 (by decide) (by decide)⟩

/-! ## C7: the monster population floor -/

/-- The refill loop always reaches at least 6 monsters. -/
theorem refillLoop_length (supply : ℕ → Monster) (k : ℕ) (ms : List Monster) :
    6 ≤ (refillLoop supply k ms).length := by
  induction k, ms using refillLoop.induct supply with
  | case1 k ms h ih => rw [refillLoop, if_pos h]; exact ih
  | case2 k ms h => rw [refillLoop, if_neg h]; omega

/-- C7.  After `update_monsters` the monster list always holds at least 6
monsters, whatever the state before the call. -/
theorem update_monsters_population_floor (supply : ℕ → Monster) (s : GameState) :
    6 ≤ (updateMonsters supply s).monsters.length :=
  refillLoop_length supply 0 _

/-! ## C2: the hp invariant -/

/-- The invariant `0 ≤ hp ≤ max_hp` of the data model. -/
def hpInv (p : Player) : Prop := 0 ≤ p.hp ∧ p.hp ≤ p.max_hp

/-- `handle_movement` does not touch the hp. -/
theorem handleMovement_hp (s : GameState) : (handleMovement s).player.hp = s.player.hp := by
  simp only [handleMovement]
  split <;> rfl

/-- `handle_movement` does not touch the max hp. -/
theorem handleMovement_max_hp (s : GameState) :
    (handleMovement s).player.max_hp = s.player.max_hp := by
  simp only [handleMovement]
  split <;> rfl

/-- The monster loop of `update_monsters` keeps the hp invariant. -/
theorem updateLoop_hp_inv (ms : List Monster) : ∀ t : TickState, hpInv t.player →
    hpInv (updateLoop t ms).1.player := by
  induction ms with
  | nil => intro t h; rw [updateLoop]; exact h
  | cons m rest ih =>
    intro t h
    obtain ⟨h1, h2⟩ := h
    simp only [updateLoop]
    by_cases hd : distOf t.player.x t.player.y m.x m.y < 26
    · rw [if_pos hd]
      by_cases hz :
          max 0 (t.player.hp - max 1 (m.attack - t.player.defense_power)) = 0
      · rw [if_pos hz]
        constructor
        · show (0:ℤ) ≤ t.player.max_hp
          omega
        · show t.player.max_hp ≤ t.player.max_hp
          omega
      · rw [if_neg hz]
        refine ih _ ⟨?_, ?_⟩
        · show (0:ℤ) ≤ max 0 (t.player.hp - max 1 (m.attack - t.player.defense_power))
          omega
        · show max 0 (t.player.hp - max 1 (m.attack - t.player.defense_power)) ≤
            t.player.max_hp
          omega
    · rw [if_neg hd]
      exact ih t ⟨h1, h2⟩

/-- Collecting one drop keeps the hp invariant. -/
theorem applyDrop_hp_inv (p : Player) (inv : List Equipment) (d : Drop) (h : hpInv p) :
    hpInv (applyDrop p inv d).1 := by
  obtain ⟨h1, h2⟩ := h
  unfold applyDrop
  split_ifs with he hg hm hr
  · exact gainExpLoop_hp_inv _ false h1 h2
  · exact ⟨h1, h2⟩
  · refine ⟨?_, ?_⟩
    · show (0:ℤ) ≤ min p.max_hp (p.hp + 6)
      omega
    · show min p.max_hp (p.hp + 6) ≤ p.max_hp
      omega
  · cases hd : d.equipment with
    | some e => exact ⟨h1, h2⟩
    | none => exact ⟨h1, h2⟩
  · exact ⟨h1, h2⟩

/-- The collect loop keeps the hp invariant. -/
theorem collectLoop_hp_inv (ds : List Drop) : ∀ (p : Player) (inv : List Equipment),
    hpInv p → hpInv (collectLoop p inv ds).1 := by
  induction ds with
  | nil => intro p inv h; rw [collectLoop]; exact h
  | cons d rest ih =>
    intro p inv h
    simp only [collectLoop]
    by_cases hd : Real.sqrt ((d.x - p.x) ^ 2 + (d.y - p.y) ^ 2) < 25
    · rw [if_pos hd]
      exact ih _ _ (applyDrop_hp_inv p inv d h)
    · rw [if_neg hd]
      exact ih p inv h

/-- Reward handling on a monster kill keeps the hp invariant. -/
theorem handleMonsterDown_hp_inv (roll : SpawnRoll) (p : Player) (drops : List Drop)
    (m : Monster) (h : hpInv p) : hpInv (handleMonsterDown roll p drops m).1 := by
  have := gainExpLoop_hp_inv { p with exp := p.exp + m.exp_reward } false h.1 h.2
  exact this

/-- The attack loop keeps the hp invariant. -/
theorem attackLoop_hp_inv (ms : List Monster) :
    ∀ (bonus : ℕ → ℤ) (rolls : ℕ → SpawnRoll) (bi di : ℕ) (p : Player) (drops : List Drop),
    hpInv p → hpInv (attackLoop bonus rolls bi di p drops ms).1 := by
  induction ms with
  | nil => intro bonus rolls bi di p drops h; rw [attackLoop]; exact h
  | cons m rest ih =>
    intro bonus rolls bi di p drops h
    simp only [attackLoop]
    by_cases hd : Real.sqrt ((m.x - p.x) ^ 2 + (m.y - p.y) ^ 2) < 60
    · rw [if_pos hd]
      by_cases hz : max 0 (m.hp - (p.attack_power + bonus bi)) = 0
      · rw [if_pos hz]
        exact ih _ _ _ _ _ _ (handleMonsterDown_hp_inv _ p drops _ h)
      · rw [if_neg hz]
        exact ih _ _ _ _ _ _ h
    · rw [if_neg hd]
      exact ih _ _ _ _ _ _ h

/-- `equip_selected` does not touch the hp or max hp. -/
theorem equipSelected_hp (s : GameState) (i : ℕ) :
    (equipSelected s i).player.hp = s.player.hp ∧
    (equipSelected s i).player.max_hp = s.player.max_hp := by
  unfold equipSelected
  split_ifs with h
  · dsimp only
    split_ifs with ha
    · exact ⟨rfl, rfl⟩
    · exact ⟨rfl, rfl⟩
  · exact ⟨rfl, rfl⟩

/-- C2.  Every core operation keeps the invariant `0 ≤ hp ≤ max_hp` of the
player state: movement, the monster update, the melee attack, drop
collection, `gain_exp` and the equip/discard operations. -/
theorem hp_invariant_preserved (s : GameState) (h : hpInv s.player) :
    hpInv (handleMovement s).player ∧
    (∀ supply : ℕ → Monster, hpInv (updateMonsters supply s).player) ∧
    (∀ (bonus : ℕ → ℤ) (rolls : ℕ → SpawnRoll), hpInv (attackMonsters bonus rolls s).player) ∧
    hpInv (collectDrops s).player ∧
    (∀ amount : ℤ, hpInv (s.player.gain_exp amount).1) ∧
    (∀ i : ℕ, hpInv (equipSelected s i).player) ∧
    (∀ i : ℕ, hpInv (discardSelected s i).player) := by
  refine ⟨?_, ?_, ?_, ?_, ?_, ?_, ?_⟩
  · have e1 := handleMovement_hp s
    have e2 := handleMovement_max_hp s
    exact ⟨by rw [e1]; exact h.1, by rw [e1, e2]; exact h.2⟩
  · intro supply
    exact updateLoop_hp_inv s.monsters
      { player := s.player, drops := s.drops, combo_timer := s.combo_timer } h
  · intro bonus rolls
    exact attackLoop_hp_inv s.monsters bonus rolls 0 0 s.player s.drops h
  · exact collectLoop_hp_inv s.drops s.player s.inventory h
  · intro amount
    exact gainExpLoop_hp_inv { s.player with exp := s.player.exp + amount } false h.1 h.2
  · intro i
    have e := equipSelected_hp s i
    exact ⟨by rw [e.1]; exact h.1, by rw [e.1, e.2]; exact h.2⟩
  · intro i
    unfold discardSelected
    split
    · exact h
    · exact h

/-- C2 witness at the default game state. -/
theorem hp_invariant_preserved_witness :
    hpInv ({} : GameState).player ∧
    (hpInv (handleMovement {}).player ∧
      (∀ supply : ℕ → Monster, hpInv (updateMonsters supply {}).player) ∧
      (∀ (bonus : ℕ → ℤ) (rolls : ℕ → SpawnRoll),
        hpInv (attackMonsters bonus rolls {}).player) ∧
      hpInv (collectDrops {}).player ∧
      (∀ amount : ℤ, hpInv (({} : GameState).player.gain_exp amount).1) ∧
      (∀ i : ℕ, hpInv (equipSelected {} i).player) ∧
      (∀ i : ℕ, hpInv (discardSelected {} i).player)) :=
  ⟨⟨by decide, by decide⟩, hp_invariant_preserved {} ⟨by decide, by decide⟩⟩

/-! ## C3: per-monster semantics of update_monsters -/

/-- The monster movement of lines 302-306: one step of size `speed`
along the direction to the player, normalized by the guarded distance. -/
noncomputable def moveMonster (p : Player) (m : Monster) : Monster :=
  { m with
    x := m.x + m.speed * (p.x - m.x) / distOf p.x p.y m.x m.y
    y := m.y + m.speed * (p.y - m.y) / distOf p.x p.y m.x m.y }

/-- C3.  Processing one monster in `update_monsters`: the monster always
moves toward the player by its speed along the normalized direction
vector (distance floored at 1); within the contact radius 26 the player
takes `max(1, attack - defense_power())` damage (hp floored at 0); if
the resulting hp is 0 the player is fully healed, loses 20 gold floored
at 0, is reset to the start position, the drops are cleared, and the
remaining monsters are left unprocessed; otherwise the loop continues on
the rest with the damaged player and the combo timer set. -/
theorem update_monsters_step (t : TickState) (m : Monster) (rest : List Monster) :
    (¬ distOf t.player.x t.player.y m.x m.y < 26 →
      updateLoop t (m :: rest) =
        ((updateLoop t rest).1, moveMonster t.player m :: (updateLoop t rest).2)) ∧
    (distOf t.player.x t.player.y m.x m.y < 26 →
      max 0 (t.player.hp - max 1 (m.attack - t.player.defense_power)) = 0 →
      updateLoop t (m :: rest) =
        ({ player := deathReset { t.player with
             hp := max 0 (t.player.hp - max 1 (m.attack - t.player.defense_power)) },
           drops := [], combo_timer := 15 },
         moveMonster t.player m :: rest)) ∧
    (distOf t.player.x t.player.y m.x m.y < 26 →
      ¬ max 0 (t.player.hp - max 1 (m.attack - t.player.defense_power)) = 0 →
      updateLoop t (m :: rest) =
        ((updateLoop
            { player := { t.player with
                hp := max 0 (t.player.hp - max 1 (m.attack - t.player.defense_power)) },
              drops := t.drops, combo_timer := 15 } rest).1,
         moveMonster t.player m ::
           (updateLoop
             { player := { t.player with
                 hp := max 0 (t.player.hp - max 1 (m.attack - t.player.defense_power)) },
               drops := t.drops, combo_timer := 15 } rest).2)) := by
  refine ⟨?_, ?_, ?_⟩
  · intro hd
    simp only [updateLoop]
    rw [if_neg hd]
    rfl
  · intro hd hz
    simp only [updateLoop]
    rw [if_pos hd, if_pos hz]
    rfl
  · intro hd hz
    simp only [updateLoop]
    rw [if_pos hd, if_neg hz]
    rfl

/-- Concrete player for the witnesses: 3 hp, 5 gold, defaults otherwise. -/
def wPlayer : Player := { hp := 3, gold := 5 }

/-- Concrete monster for the witnesses, sitting exactly on the player. -/
def wMonster : Monster :=
  { x := 400, y := 260, hp := 30, max_hp := 30, attack := 40, exp_reward := 8,
    gold_reward := 6, speed := 2 }

/-- Concrete drop for the witnesses. -/
def wDrop : Drop := { x := 0, y := 0, kind := "gold", amount := 8 }

/-- Concrete tick state for the witnesses. -/
def wTick : TickState := { player := wPlayer, drops := [wDrop], combo_timer := 0 }

/-- The guarded distance from a point to itself is 1. -/
theorem distOf_self (a b : ℝ) : distOf a b a b = 1 := by
  unfold distOf
  rw [show (a - a) ^ 2 + (b - b) ^ 2 = 0 by ring, Real.sqrt_zero]
  exact max_eq_left (by norm_num)

/-- C3 witness: a monster in contact with a 3-hp player kills it, and the
loop ends in the respawn-penalty state. -/
theorem update_monsters_step_witness :
    distOf wPlayer.x wPlayer.y wMonster.x wMonster.y < 26 ∧
    max 0 (wPlayer.hp - max 1 (wMonster.attack - wPlayer.defense_power)) = 0 ∧
    updateLoop wTick [wMonster] =
      ({ player := deathReset { wPlayer with
           hp := max 0 (wPlayer.hp - max 1 (wMonster.attack - wPlayer.defense_power)) },
         drops := [], combo_timer := 15 },
       [moveMonster wPlayer wMonster]) := by
  have hd : distOf wPlayer.x wPlayer.y wMonster.x wMonster.y < 26 := by
    have e : distOf wPlayer.x wPlayer.y wMonster.x wMonster.y = distOf 400 260 400 260 := rfl
    rw [e, distOf_self]
    norm_num
  have hz : max 0 (wPlayer.hp - max 1 (wMonster.attack - wPlayer.defense_power)) = 0 := by
    decide
  exact ⟨hd, hz, (update_monsters_step wTick wMonster []).2.1 hd hz⟩

/-! ## C5: kill rewards in attack_monsters -/

/-- C5.  In the attack loop, a monster within the melee radius 60 whose
5 hp are covered by the damage roll is removed (the loop continues on
the remaining monsters without it), the player gains its exp reward via
`gain_exp` and its gold reward exactly once, and drop generation runs at
the monster's death location. -/
theorem attack_kill_rewards (bonus : ℕ → ℤ) (rolls : ℕ → SpawnRoll) (bi di : ℕ)
    (p : Player) (drops : List Drop) (m : Monster) (rest : List Monster)
    (hdist : Real.sqrt ((m.x - p.x) ^ 2 + (m.y - p.y) ^ 2) < 60)
    (hhp : m.hp = 5) (hdmg : 5 ≤ p.attack_power + bonus bi) :
    attackLoop bonus rolls bi di p drops (m :: rest) =
      attackLoop bonus rolls (bi + 1) (di + 1)
        { (p.gain_exp m.exp_reward).1 with
          gold := (p.gain_exp m.exp_reward).1.gold + m.gold_reward }
        (drops ++ spawnDrops (rolls di) m.x m.y) rest := by
  have hz : max 0 (m.hp - (p.attack_power + bonus bi)) = 0 := by omega
  simp only [attackLoop]
  rw [if_pos hdist, if_pos hz]
  rfl

/-- Concrete monster with 5 hp on the player for the C5 witness. -/
def wMonster5 : Monster :=
  { x := 400, y := 260, hp := 5, max_hp := 30, attack := 4, exp_reward := 8,
    gold_reward := 6, speed := 2 }

/-- Degenerate random data: the damage bonus is always 0 and no drop
roll fires. -/
def wRolls : ℕ → SpawnRoll := fun _ =>
  { dropExp := false, dropGold := false, dropGem := false, dropGear := false,
    jitterX := 0, jitterY := 0, gear := { name := "검" } }

/-- C5 witness: the default player kills the 5-hp monster standing on it. -/
theorem attack_kill_rewards_witness :
    Real.sqrt ((wMonster5.x - ({} : Player).x) ^ 2 + (wMonster5.y - ({} : Player).y) ^ 2) < 60 ∧
    wMonster5.hp = 5 ∧
    5 ≤ ({} : Player).attack_power + (fun _ => (0:ℤ)) 0 ∧
    attackLoop (fun _ => (0:ℤ)) wRolls 0 0 {} [] [wMonster5] =
      attackLoop (fun _ => (0:ℤ)) wRolls 1 1
        { (({} : Player).gain_exp wMonster5.exp_reward).1 with
          gold := (({} : Player).gain_exp wMonster5.exp_reward).1.gold + wMonster5.gold_reward }
        ([] ++ spawnDrops (wRolls 0) wMonster5.x wMonster5.y) [] := by
  have hd : Real.sqrt ((wMonster5.x - ({} : Player).x) ^ 2 +
      (wMonster5.y - ({} : Player).y) ^ 2) < 60 := by
    show Real.sqrt (((400:ℝ) - 400) ^ 2 + ((260:ℝ) - 260) ^ 2) < 60
    rw [show ((400:ℝ) - 400) ^ 2 + ((260:ℝ) - 260) ^ 2 = 0 by norm_num, Real.sqrt_zero]
    norm_num
  exact ⟨hd, rfl, by decide,
    attack_kill_rewards (fun _ => (0:ℤ)) wRolls 0 0 {} [] wMonster5 [] hd rfl (by decide)⟩

/-! ## C6: the pickup radius of collect_drops -/

/-- Collecting one drop never moves the player. -/
theorem applyDrop_xy (p : Player) (inv : List Equipment) (d : Drop) :
    (applyDrop p inv d).1.x = p.x ∧ (applyDrop p inv d).1.y = p.y := by
  unfold applyDrop
  split_ifs with h1 h2 h3 h4
  · exact gainExpLoop_xy { p with exp := p.exp + d.amount } false
  · exact ⟨rfl, rfl⟩
  · exact ⟨rfl, rfl⟩
  · rcases hE : d.equipment with _ | e <;> simp [hE]
  · exact ⟨rfl, rfl⟩

/-- The collect loop never moves the player. -/
theorem collectLoop_xy (ds : List Drop) : ∀ (p : Player) (inv : List Equipment),
    (collectLoop p inv ds).1.x = p.x ∧ (collectLoop p inv ds).1.y = p.y := by
  induction ds with
  | nil => intro p inv; rw [collectLoop]; exact ⟨rfl, rfl⟩
  | cons d rest ih =>
    intro p inv
    simp only [collectLoop]
    by_cases hd : Real.sqrt ((d.x - p.x) ^ 2 + (d.y - p.y) ^ 2) < 25
    · rw [if_pos hd]
      have h1 := ih (applyDrop p inv d).1 (applyDrop p inv d).2
      have h2 := applyDrop_xy p inv d
      exact ⟨h1.1.trans h2.1, h1.2.trans h2.2⟩
    · rw [if_neg hd]
      exact ih p inv

/-- A drop survives the collect loop iff it was in the list and lies at
distance at least 25 from the player (who does not move during the
loop). -/
theorem collectLoop_mem (ds : List Drop) : ∀ (p : Player) (inv : List Equipment) (d : Drop),
    d ∈ (collectLoop p inv ds).2.2 ↔
      d ∈ ds ∧ ¬ Real.sqrt ((d.x - p.x) ^ 2 + (d.y - p.y) ^ 2) < 25 := by
  induction ds with
  | nil => intro p inv d; simp [collectLoop]
  | cons d0 rest ih =>
    intro p inv d
    simp only [collectLoop]
    by_cases h0 : Real.sqrt ((d0.x - p.x) ^ 2 + (d0.y - p.y) ^ 2) < 25
    · rw [if_pos h0]
      have hxy := applyDrop_xy p inv d0
      have hmem := ih (applyDrop p inv d0).1 (applyDrop p inv d0).2 d
      rw [hxy.1, hxy.2] at hmem
      rw [hmem]
      constructor
      · rintro ⟨hm, hfar⟩; exact ⟨List.mem_cons_of_mem _ hm, hfar⟩
      · rintro ⟨hm, hfar⟩
        rcases List.mem_cons.mp hm with he | hm2
        · subst he; exact absurd h0 hfar
        · exact ⟨hm2, hfar⟩
    · rw [if_neg h0]
      simp only [List.mem_cons]
      rw [ih p inv d]
      constructor
      · rintro (he | ⟨hm, hfar⟩)
        · subst he; exact ⟨Or.inl rfl, h0⟩
        · exact ⟨Or.inr hm, hfar⟩
      · rintro ⟨he | hm, hfar⟩
        · exact Or.inl he
        · exact Or.inr ⟨hm, hfar⟩

/-- C6.  `collect_drops` removes a drop iff the player is strictly within
25 units of it at call time; a collected gem adds its gold amount and
heals 6 hp capped at max hp. -/
theorem collect_drops_semantics (s : GameState) :
    (∀ d : Drop, d ∈ (collectDrops s).drops ↔
      d ∈ s.drops ∧ ¬ Real.sqrt ((d.x - s.player.x) ^ 2 + (d.y - s.player.y) ^ 2) < 25) ∧
    (∀ d : Drop, s.drops = [d] → d.kind = "gem" →
      Real.sqrt ((d.x - s.player.x) ^ 2 + (d.y - s.player.y) ^ 2) < 25 →
      (collectDrops s).player.gold = s.player.gold + d.amount ∧
      (collectDrops s).player.hp = min s.player.max_hp (s.player.hp + 6) ∧
      (collectDrops s).drops = []) := by
  constructor
  · intro d
    exact collectLoop_mem s.drops s.player s.inventory d
  · intro d hds hk hdist
    have key : collectLoop s.player s.inventory [d] =
        ({ s.player with
           gold := s.player.gold + d.amount
           hp := min s.player.max_hp (s.player.hp + 6) }, s.inventory, []) := by
      simp only [collectLoop]
      rw [if_pos hdist]
      unfold applyDrop
      rw [if_neg (by rw [hk]; decide), if_neg (by rw [hk]; decide), if_pos hk]
    refine ⟨?_, ?_, ?_⟩ <;> simp only [collectDrops, hds, key]

/-- Concrete gem drop on the player for the C6 and C9 witnesses. -/
def wDropGem : Drop := { x := 400, y := 260, kind := "gem", amount := 12 }

/-- Concrete state holding only the gem drop. -/
def wGemState : GameState := { drops := [wDropGem] }

/-- C6 witness: the default player stands on the gem and collects it. -/
theorem collect_drops_semantics_witness :
    (wGemState.drops = [wDropGem] ∧ wDropGem.kind = "gem" ∧
      Real.sqrt ((wDropGem.x - wGemState.player.x) ^ 2 +
        (wDropGem.y - wGemState.player.y) ^ 2) < 25) ∧
    ((collectDrops wGemState).player.gold = wGemState.player.gold + wDropGem.amount ∧
      (collectDrops wGemState).player.hp =
        min wGemState.player.max_hp (wGemState.player.hp + 6) ∧
      (collectDrops wGemState).drops = []) := by
  have hd : Real.sqrt ((wDropGem.x - wGemState.player.x) ^ 2 +
      (wDropGem.y - wGemState.player.y) ^ 2) < 25 := by
    show Real.sqrt (((400:ℝ) - 400) ^ 2 + ((260:ℝ) - 260) ^ 2) < 25
    rw [show ((400:ℝ) - 400) ^ 2 + ((260:ℝ) - 260) ^ 2 = 0 by norm_num, Real.sqrt_zero]
    norm_num
  exact ⟨⟨rfl, rfl, hd⟩, (collect_drops_semantics wGemState).2 wDropGem rfl rfl hd⟩

/-! ## C8: equip semantics -/

/-- C8.  `equip_selected` on a valid index: an armor-named item goes to
the armor slot, any other item goes to the weapon slot; when a weapon
was already equipped, the swap returns it to the inventory, leaving the
inventory size unchanged. -/
theorem equip_selected_swap (s : GameState) (i : ℕ) (h : i < s.inventory.length) :
    (isArmorName (s.inventory.get ⟨i, h⟩).name = true →
      (equipSelected s i).player.armor = some (s.inventory.get ⟨i, h⟩) ∧
      (equipSelected s i).player.weapon = s.player.weapon) ∧
    (isArmorName (s.inventory.get ⟨i, h⟩).name = false →
      (equipSelected s i).player.weapon = some (s.inventory.get ⟨i, h⟩) ∧
      (equipSelected s i).player.armor = s.player.armor) ∧
    (∀ w : Equipment, isArmorName (s.inventory.get ⟨i, h⟩).name = false →
      s.player.weapon = some w →
      (equipSelected s i).inventory = s.inventory.eraseIdx i ++ [w] ∧
      (equipSelected s i).inventory.length = s.inventory.length ∧
      w ∈ (equipSelected s i).inventory) := by
  refine ⟨?_, ?_, ?_⟩
  · intro ha
    unfold equipSelected
    rw [dif_pos h]
    dsimp only
    rw [if_pos ha]
    exact ⟨rfl, rfl⟩
  · intro ha
    unfold equipSelected
    rw [dif_pos h]
    dsimp only
    rw [if_neg (by simpa using ha)]
    exact ⟨rfl, rfl⟩
  · intro w ha hw
    unfold equipSelected
    rw [dif_pos h]
    dsimp only
    rw [if_neg (by simpa using ha), hw]
    refine ⟨rfl, ?_, ?_⟩
    · show (s.inventory.eraseIdx i ++ [w]).length = s.inventory.length
      rw [List.length_append]
      have := List.length_eraseIdx_add_one h
      simp only [List.length_cons, List.length_nil]
      omega
    · show w ∈ s.inventory.eraseIdx i ++ [w]
      exact List.mem_append_right _ (List.mem_singleton_self w)

/-- Concrete weapon-named item in the inventory for the C8 witness. -/
def wSword : Equipment := { name := "빛나는 검", attack := 5 }

/-- Concrete previously equipped weapon for the C8 witness. -/
def wOldSword : Equipment := { name := "단단한 검", attack := 3 }

/-- Concrete state for the C8 witness: one item in the inventory, a
weapon already equipped. -/
def wEquipState : GameState :=
  { player := { weapon := some wOldSword }, inventory := [wSword] }

/-- C8 witness: equipping the sword swaps it with the equipped weapon. -/
theorem equip_selected_swap_witness :
    ((0:ℕ) < wEquipState.inventory.length ∧ isArmorName wSword.name = false ∧
      wEquipState.player.weapon = some wOldSword) ∧
    (equipSelected wEquipState 0).player.weapon = some wSword ∧
    (equipSelected wEquipState 0).inventory =
      wEquipState.inventory.eraseIdx 0 ++ [wOldSword] ∧
    (equipSelected wEquipState 0).inventory.length = wEquipState.inventory.length ∧
    wOldSword ∈ (equipSelected wEquipState 0).inventory := by
  have h : (0:ℕ) < wEquipState.inventory.length := by decide
  have ha : isArmorName wSword.name = false := by decide
  have hw : wEquipState.player.weapon = some wOldSword := rfl
  exact ⟨⟨h, ha, hw⟩, ((equip_selected_swap wEquipState 0 h).2.1 ha).1,
    (equip_selected_swap wEquipState 0 h).2.2 wOldSword ha hw⟩

/-! ## C9: clamping and the division guard -/

/-- C9.  The numeric guards of the core: the distance used as divisor in
`update_monsters` is floored at 1 (so division by zero is unreachable),
the player hp stays at least 0 through the monster loop, the death
penalty floors gold at 0, and the two heals (level-up and gem) are
capped at max hp.  All embedded operations are total functions, so no
operation signals failure. -/
theorem clamping_and_division_guard :
    (∀ px py mx my : ℝ, 1 ≤ distOf px py mx my) ∧
    (∀ px py mx my : ℝ, distOf px py mx my ≠ 0) ∧
    (∀ (t : TickState) (ms : List Monster), hpInv t.player →
      0 ≤ (updateLoop t ms).1.player.hp) ∧
    (∀ p : Player, 0 ≤ (deathReset p).gold) ∧
    (∀ p : Player, (levelUpStep p).hp ≤ (levelUpStep p).max_hp) ∧
    (∀ (p : Player) (inv : List Equipment) (d : Drop),
      d.kind = "gem" → (applyDrop p inv d).1.hp ≤ p.max_hp) := by
  refine ⟨?_, ?_, ?_, ?_, ?_, ?_⟩
  · intro px py mx my
    exact le_max_left 1 _
  · intro px py mx my h0
    have h1 : (1:ℝ) ≤ distOf px py mx my := le_max_left 1 _
    rw [h0] at h1
    exact absurd h1 (by norm_num)
  · intro t ms h
    exact (updateLoop_hp_inv ms t h).1
  · intro p
    exact le_max_left 0 _
  · intro p
    have e1 : (levelUpStep p).hp = min (p.max_hp + 15) (p.hp + 20) := rfl
    have e2 : (levelUpStep p).max_hp = p.max_hp + 15 := rfl
    omega
  · intro p inv d hk
    unfold applyDrop
    rw [if_neg (by rw [hk]; decide), if_neg (by rw [hk]; decide), if_pos hk]
    show min p.max_hp (p.hp + 6) ≤ p.max_hp
    omega

/-- C9 witness: the clamp clauses instantiated at concrete states. -/
theorem clamping_and_division_guard_witness :
    hpInv wTick.player ∧ wDropGem.kind = "gem" ∧
    (1 ≤ distOf 400 260 400 260 ∧
      0 ≤ (updateLoop wTick [wMonster]).1.player.hp ∧
      0 ≤ (deathReset wPlayer).gold ∧
      (levelUpStep wPlayer).hp ≤ (levelUpStep wPlayer).max_hp ∧
      (applyDrop wPlayer [] wDropGem).1.hp ≤ wPlayer.max_hp) :=
  ⟨⟨by decide, by decide⟩, rfl,
    clamping_and_division_guard.1 400 260 400 260,
    clamping_and_division_guard.2.2.1 wTick [wMonster] ⟨by decide, by decide⟩,
    clamping_and_division_guard.2.2.2.1 wPlayer,
    clamping_and_division_guard.2.2.2.2.1 wPlayer,
    clamping_and_division_guard.2.2.2.2.2 wPlayer [] wDropGem rfl⟩
